import Mathlib

/-!
# Verification of the keysely-n8n-infra deployment repository

Shallow embedding of the repository's operational code:

* the inline Python custom-resource handler defined in
  `lib/stacks/n8n-stack.ts` (key-pair private-key retrieval from SSM
  Parameter Store and storage into Secrets Manager);
* the CDK stack construction in `lib/stacks/n8n-stack.ts` (resource graph
  produced from the configuration inputs);
* the docker-compose composition and the `.env` heredoc written by
  `scripts/user-data.sh`;
* the diagnostic script `scripts/check-traefik-local.sh`.

Each claim about the repository is settled by a theorem over these
definitions.
-/

namespace N8nInfra

/-! ## The custom-resource handler (inline Python in `n8n-stack.ts`)

The handler receives a CloudFormation custom-resource event, reads the key
pair private key from SSM Parameter Store (polling up to 10 times with a
2-second sleep between attempts), and creates or updates a Secrets Manager
secret with that value.  We model the SSM parameter as a function from the
poll attempt number to the value visible at that attempt (`none` models
`ParameterNotFound`), the Secrets Manager state as an association list of
secrets, and ARN generation for `create_secret` as an oracle function. -/

inductive RequestType
  | Create
  | Update
  | Delete
  deriving DecidableEq, Repr

structure Event where
  requestType : RequestType
  keyPairId : String
  secretName : String
  deriving DecidableEq, Repr

structure Secret where
  name : String
  arn : String
  value : String
  deriving DecidableEq, Repr

abbrev SecretsState := List Secret

inductive Status
  | SUCCESS
  | FAILED
  deriving DecidableEq, Repr

/-- One observable action of the handler: a call to a cloud API, a sleep,
or the final `cfnresponse.send`. -/
inductive ApiCall
  | getParameter (name : String)
  | sleep (seconds : Nat)
  | describeSecret (name : String)
  | putSecretValue (arn value : String)
  | createSecret (name value : String)
  | sendResponse (status : Status) (data : List (String × String))
  deriving DecidableEq, Repr

/-- Body of the `while retry_count < max_retries` loop of the handler,
recursing on the number of remaining attempts
(`remaining = max_retries - retry_count`; the loop guard
`retry_count < max_retries` is `0 < remaining`).
`ssm attempt` is the value of the parameter seen by the `get_parameter`
call made at attempt number `attempt` (`none` = `ParameterNotFound`). -/
def pollLoopGo (ssm : Nat → Option String) (name : String) :
    Nat → Nat → List ApiCall × Option String
  | _, 0 => ([], none)
  | attempt, remaining + 1 =>
    match ssm attempt with
    | some v => ([ApiCall.getParameter name], some v)
    | none =>
      -- `retry_count += 1; if retry_count < max_retries: time.sleep(2)
      --  else: raise Exception(...)`
      if 0 < remaining then
        let rest := pollLoopGo ssm name (attempt + 1) remaining
        (ApiCall.getParameter name :: ApiCall.sleep 2 :: rest.1, rest.2)
      else
        ([ApiCall.getParameter name], none)

/-- The `while retry_count < max_retries` loop, started at attempt number
`attempt`.  Returns the emitted trace together with the retrieved value
(`none` when the loop exhausted its retries and raised). -/
def pollLoop (ssm : Nat → Option String) (name : String)
    (attempt maxRetries : Nat) : List ApiCall × Option String :=
  pollLoopGo ssm name attempt (maxRetries - attempt)

/-- `secretsmanager.describe_secret(SecretId=secret_name)`: find the secret
with the given name (first match). -/
def findSecret (st : SecretsState) (name : String) : Option Secret :=
  st.find? (fun s => s.name = name)

/-- `secretsmanager.put_secret_value(SecretId=secret_arn, ...)`: update the
value of the secret with the given ARN. -/
def putSecret (st : SecretsState) (arn value : String) : SecretsState :=
  st.map (fun s => if s.arn = arn then { s with value := value } else s)

/-- The handler.  `mkArn` models the ARN Secrets Manager assigns when
`create_secret` is called.  Returns the trace of observable actions and the
final Secrets Manager state. -/
def handler (ssm : Nat → Option String) (mkArn : String → String)
    (st : SecretsState) (event : Event) : List ApiCall × SecretsState :=
  if event.requestType = RequestType.Delete then
    ([ApiCall.sendResponse Status.SUCCESS []], st)
  else
    let parameterName := "/ec2/keypair/" ++ event.keyPairId
    let fetched := pollLoop ssm parameterName 0 10
    match fetched.2 with
    | none =>
      -- `raise Exception('Private key not found ...')`, caught by the
      -- outer `except`, which sends FAILED with `{}`.
      (fetched.1 ++ [ApiCall.sendResponse Status.FAILED []], st)
    | some privateKey =>
      if privateKey = "" then
        -- `if not private_key: raise Exception(...)`, caught likewise.
        (fetched.1 ++ [ApiCall.sendResponse Status.FAILED []], st)
      else
        match findSecret st event.secretName with
        | some s =>
          (fetched.1 ++
            [ApiCall.describeSecret event.secretName,
             ApiCall.putSecretValue s.arn privateKey,
             ApiCall.sendResponse Status.SUCCESS
               [("PrivateKeySecretArn", s.arn)]],
           putSecret st s.arn privateKey)
        | none =>
          let arn := mkArn event.secretName
          (fetched.1 ++
            [ApiCall.describeSecret event.secretName,
             ApiCall.createSecret event.secretName privateKey,
             ApiCall.sendResponse Status.SUCCESS
               [("PrivateKeySecretArn", arn)]],
           st ++ [⟨event.secretName, arn, privateKey⟩])

/-- Value stored under a secret name (first match), as an external reader
of Secrets Manager would observe it. -/
def secretValue (st : SecretsState) (name : String) : Option String :=
  (findSecret st name).map Secret.value

/-- ARN of the secret with a given name (first match). -/
def secretArn (st : SecretsState) (name : String) : Option String :=
  (findSecret st name).map Secret.arn

/-- The private-key value the handler's poll loop reads from the
Parameter Store parameter `/ec2/keypair/{KeyPairId}`. -/
def fetchedKey (ssm : Nat → Option String) (event : Event) : Option String :=
  (pollLoop ssm ("/ec2/keypair/" ++ event.keyPairId) 0 10).2

/-! ### Trace observations -/

def isGet : ApiCall → Bool
  | ApiCall.getParameter _ => true
  | _ => false

def isDescribe : ApiCall → Bool
  | ApiCall.describeSecret _ => true
  | _ => false

def isPut : ApiCall → Bool
  | ApiCall.putSecretValue _ _ => true
  | _ => false

def isCreate : ApiCall → Bool
  | ApiCall.createSecret _ _ => true
  | _ => false

/-- Number of `ssm.get_parameter` calls in a trace. -/
def countGet (t : List ApiCall) : Nat := t.countP isGet

/-- Number of `secretsmanager.describe_secret` calls in a trace. -/
def countDescribe (t : List ApiCall) : Nat := t.countP isDescribe

/-- Number of `secretsmanager.put_secret_value` calls in a trace. -/
def countPut (t : List ApiCall) : Nat := t.countP isPut

/-- Number of `secretsmanager.create_secret` calls in a trace. -/
def countCreate (t : List ApiCall) : Nat := t.countP isCreate

/-- The durations of the `time.sleep` calls in a trace, in order. -/
def sleepsOf (t : List ApiCall) : List Nat :=
  t.filterMap fun c =>
    match c with
    | ApiCall.sleep s => some s
    | _ => none

/-! ### Poll-loop unfolding lemmas -/

theorem pollLoop_stop (ssm : Nat → Option String) (name : String)
    {attempt maxRetries : Nat} (h : maxRetries ≤ attempt) :
    pollLoop ssm name attempt maxRetries = ([], none) := by
  unfold pollLoop
  rw [Nat.sub_eq_zero_of_le h]
  rfl

theorem pollLoop_found (ssm : Nat → Option String) (name : String)
    {attempt maxRetries : Nat} {v : String}
    (h : attempt < maxRetries) (hv : ssm attempt = some v) :
    pollLoop ssm name attempt maxRetries = ([ApiCall.getParameter name], some v) := by
  obtain ⟨r, hr⟩ : ∃ r, maxRetries - attempt = r + 1 :=
    ⟨maxRetries - attempt - 1, by omega⟩
  unfold pollLoop
  rw [hr]
  simp [pollLoopGo, hv]

theorem pollLoop_miss (ssm : Nat → Option String) (name : String)
    {attempt maxRetries : Nat}
    (h : attempt + 1 < maxRetries) (hv : ssm attempt = none) :
    pollLoop ssm name attempt maxRetries =
      (ApiCall.getParameter name :: ApiCall.sleep 2 ::
         (pollLoop ssm name (attempt + 1) maxRetries).1,
       (pollLoop ssm name (attempt + 1) maxRetries).2) := by
  obtain ⟨r, hr⟩ : ∃ r, maxRetries - attempt = r + 1 :=
    ⟨maxRetries - attempt - 1, by omega⟩
  have hr2 : maxRetries - (attempt + 1) = r := by omega
  have hrpos : 0 < r := by omega
  unfold pollLoop
  rw [hr, hr2]
  simp [pollLoopGo, hv, hrpos]

theorem pollLoop_last_miss (ssm : Nat → Option String) (name : String)
    {attempt maxRetries : Nat}
    (h : attempt < maxRetries) (h2 : ¬ attempt + 1 < maxRetries)
    (hv : ssm attempt = none) :
    pollLoop ssm name attempt maxRetries = ([ApiCall.getParameter name], none) := by
  have hr : maxRetries - attempt = 0 + 1 := by omega
  unfold pollLoop
  rw [hr]
  simp [pollLoopGo, hv]

theorem sleepsOf_append (t₁ t₂ : List ApiCall) :
    sleepsOf (t₁ ++ t₂) = sleepsOf t₁ ++ sleepsOf t₂ :=
  List.filterMap_append t₁ t₂ _

theorem countGet_append (t₁ t₂ : List ApiCall) :
    countGet (t₁ ++ t₂) = countGet t₁ + countGet t₂ :=
  List.countP_append _ t₁ t₂

theorem countDescribe_append (t₁ t₂ : List ApiCall) :
    countDescribe (t₁ ++ t₂) = countDescribe t₁ + countDescribe t₂ :=
  List.countP_append _ t₁ t₂

theorem countPut_append (t₁ t₂ : List ApiCall) :
    countPut (t₁ ++ t₂) = countPut t₁ + countPut t₂ :=
  List.countP_append _ t₁ t₂

theorem countCreate_append (t₁ t₂ : List ApiCall) :
    countCreate (t₁ ++ t₂) = countCreate t₁ + countCreate t₂ :=
  List.countP_append _ t₁ t₂

/-- The poll loop only calls `get_parameter` and `time.sleep`. -/
theorem pollLoop_calls (ssm : Nat → Option String) (name : String) :
    ∀ fuel attempt maxRetries, maxRetries - attempt ≤ fuel →
      ∀ c ∈ (pollLoop ssm name attempt maxRetries).1,
        c = ApiCall.getParameter name ∨ c = ApiCall.sleep 2 := by
  intro fuel
  induction fuel with
  | zero =>
    intro a m hm c hc
    rw [pollLoop_stop ssm name (by omega)] at hc
    simp at hc
  | succ f ih =>
    intro a m hm c hc
    by_cases h1 : a < m
    · cases hv : ssm a with
      | some v =>
        rw [pollLoop_found ssm name h1 hv] at hc
        simp at hc
        exact Or.inl hc
      | none =>
        by_cases h2 : a + 1 < m
        · rw [pollLoop_miss ssm name h2 hv] at hc
          simp only [List.mem_cons] at hc
          rcases hc with rfl | rfl | hc
          · exact Or.inl rfl
          · exact Or.inr rfl
          · exact ih (a + 1) m (by omega) c hc
        · rw [pollLoop_last_miss ssm name h1 h2 hv] at hc
          simp at hc
          exact Or.inl hc
    · rw [pollLoop_stop ssm name (by omega)] at hc
      simp at hc

/-! ### Poll-loop behavioural lemmas, by induction on the remaining fuel -/

/-- Every sleep the poll loop performs lasts exactly 2 seconds. -/
theorem pollLoop_sleeps_two (ssm : Nat → Option String) (name : String) :
    ∀ fuel attempt maxRetries, maxRetries - attempt ≤ fuel →
      ∀ s ∈ sleepsOf (pollLoop ssm name attempt maxRetries).1, s = 2 := by
  intro fuel
  induction fuel with
  | zero =>
    intro a m hm s hs
    rw [pollLoop_stop ssm name (by omega)] at hs
    simp [sleepsOf] at hs
  | succ f ih =>
    intro a m hm s hs
    by_cases h1 : a < m
    · cases hv : ssm a with
      | some v =>
        rw [pollLoop_found ssm name h1 hv] at hs
        simp [sleepsOf] at hs
      | none =>
        by_cases h2 : a + 1 < m
        · rw [pollLoop_miss ssm name h2 hv] at hs
          simp only [sleepsOf, List.filterMap_cons] at hs
          simp only [List.mem_cons] at hs
          rcases hs with rfl | hs
          · rfl
          · exact ih (a + 1) m (by omega) s hs
        · rw [pollLoop_last_miss ssm name h1 h2 hv] at hs
          simp [sleepsOf] at hs
    · rw [pollLoop_stop ssm name (by omega)] at hs
      simp [sleepsOf] at hs

/-- The poll loop makes at most `maxRetries - attempt` calls to
`get_parameter`. -/
theorem pollLoop_count_le (ssm : Nat → Option String) (name : String) :
    ∀ fuel attempt maxRetries, maxRetries - attempt ≤ fuel →
      countGet (pollLoop ssm name attempt maxRetries).1 ≤ maxRetries - attempt := by
  intro fuel
  induction fuel with
  | zero =>
    intro a m hm
    rw [pollLoop_stop ssm name (by omega)]
    simp [countGet]
  | succ f ih =>
    intro a m hm
    by_cases h1 : a < m
    · cases hv : ssm a with
      | some v =>
        rw [pollLoop_found ssm name h1 hv]
        simp [countGet, isGet, List.countP_cons]
        omega
      | none =>
        by_cases h2 : a + 1 < m
        · rw [pollLoop_miss ssm name h2 hv]
          have := ih (a + 1) m (by omega)
          simp only [countGet, List.countP_cons] at *
          simp [isGet] at *
          omega
        · rw [pollLoop_last_miss ssm name h1 h2 hv]
          simp [countGet, isGet, List.countP_cons]
          omega
    · rw [pollLoop_stop ssm name (by omega)]
      simp [countGet]

/-- If the parameter is absent on attempts `attempt ≤ j < k` and present at
attempt `k`, the loop returns its value after exactly `k - attempt + 1`
calls and `k - attempt` sleeps. -/
theorem pollLoop_first_found (ssm : Nat → Option String) (name : String) :
    ∀ fuel attempt maxRetries k v, maxRetries - attempt ≤ fuel →
      attempt ≤ k → k < maxRetries →
      (∀ j, attempt ≤ j → j < k → ssm j = none) → ssm k = some v →
      (pollLoop ssm name attempt maxRetries).2 = some v ∧
      countGet (pollLoop ssm name attempt maxRetries).1 = k - attempt + 1 ∧
      (sleepsOf (pollLoop ssm name attempt maxRetries).1).length = k - attempt := by
  intro fuel
  induction fuel with
  | zero =>
    intro a m k v hm hak hkm _ _
    omega
  | succ f ih =>
    intro a m k v hm hak hkm hnone hv
    by_cases hk : a = k
    · subst hk
      rw [pollLoop_found ssm name (by omega) hv]
      simp [countGet, isGet, List.countP_cons, sleepsOf]
    · have hlt : a < k := by omega
      have hva : ssm a = none := hnone a le_rfl hlt
      have h2 : a + 1 < m := by omega
      rw [pollLoop_miss ssm name h2 hva]
      have := ih (a + 1) m k v (by omega) (by omega) hkm
        (fun j hj hjk => hnone j (by omega) hjk) hv
      refine ⟨this.1, ?_, ?_⟩
      · simp only [countGet, List.countP_cons] at *
        simp [isGet] at *
        omega
      · simp only [sleepsOf, List.filterMap_cons] at *
        simp at *
        omega

/-- If the parameter is absent on every attempt, the loop returns `none`
after exactly `maxRetries - attempt` calls. -/
theorem pollLoop_exhaust (ssm : Nat → Option String) (name : String) :
    ∀ fuel attempt maxRetries, maxRetries - attempt ≤ fuel →
      (∀ j, attempt ≤ j → j < maxRetries → ssm j = none) →
      (pollLoop ssm name attempt maxRetries).2 = none ∧
      countGet (pollLoop ssm name attempt maxRetries).1 = maxRetries - attempt ∧
      (sleepsOf (pollLoop ssm name attempt maxRetries).1).length =
        maxRetries - attempt - 1 := by
  intro fuel
  induction fuel with
  | zero =>
    intro a m hm _
    rw [pollLoop_stop ssm name (by omega)]
    simp [countGet, sleepsOf]
    omega
  | succ f ih =>
    intro a m hm hnone
    by_cases h1 : a < m
    · have hva : ssm a = none := hnone a le_rfl h1
      by_cases h2 : a + 1 < m
      · rw [pollLoop_miss ssm name h2 hva]
        have := ih (a + 1) m (by omega) (fun j hj hjm => hnone j (by omega) hjm)
        refine ⟨this.1, ?_, ?_⟩
        · simp only [countGet, List.countP_cons] at *
          simp [isGet] at *
          omega
        · simp only [sleepsOf, List.filterMap_cons] at *
          simp at *
          omega
      · rw [pollLoop_last_miss ssm name h1 h2 hva]
        simp [countGet, isGet, List.countP_cons, sleepsOf]
        omega
    · rw [pollLoop_stop ssm name (by omega)]
      simp [countGet, sleepsOf]
      omega

/-! ### Handler case analysis -/

/-- Enumeration of the handler's four non-Delete outcomes: retry
exhaustion, empty key (`if not private_key`), update of an existing
secret, creation of a missing secret. -/
theorem handler_cases (ssm : Nat → Option String) (mkArn : String → String)
    (st : SecretsState) (event : Event)
    (hne : event.requestType ≠ RequestType.Delete) :
    (fetchedKey ssm event = none ∧
       handler ssm mkArn st event =
         ((pollLoop ssm ("/ec2/keypair/" ++ event.keyPairId) 0 10).1 ++
            [ApiCall.sendResponse Status.FAILED []], st)) ∨
    (fetchedKey ssm event = some "" ∧
       handler ssm mkArn st event =
         ((pollLoop ssm ("/ec2/keypair/" ++ event.keyPairId) 0 10).1 ++
            [ApiCall.sendResponse Status.FAILED []], st)) ∨
    (∃ pk s, pk ≠ "" ∧ fetchedKey ssm event = some pk ∧
       findSecret st event.secretName = some s ∧
       handler ssm mkArn st event =
         ((pollLoop ssm ("/ec2/keypair/" ++ event.keyPairId) 0 10).1 ++
            [ApiCall.describeSecret event.secretName,
             ApiCall.putSecretValue s.arn pk,
             ApiCall.sendResponse Status.SUCCESS [("PrivateKeySecretArn", s.arn)]],
          putSecret st s.arn pk)) ∨
    (∃ pk, pk ≠ "" ∧ fetchedKey ssm event = some pk ∧
       findSecret st event.secretName = none ∧
       handler ssm mkArn st event =
         ((pollLoop ssm ("/ec2/keypair/" ++ event.keyPairId) 0 10).1 ++
            [ApiCall.describeSecret event.secretName,
             ApiCall.createSecret event.secretName pk,
             ApiCall.sendResponse Status.SUCCESS
               [("PrivateKeySecretArn", mkArn event.secretName)]],
          st ++ [⟨event.secretName, mkArn event.secretName, pk⟩])) := by
  unfold handler fetchedKey
  rw [if_neg hne]
  cases hf : (pollLoop ssm ("/ec2/keypair/" ++ event.keyPairId) 0 10).2 with
  | none =>
    refine Or.inl ⟨rfl, ?_⟩
    simp only [hf]
  | some pk =>
    by_cases hpk : pk = ""
    · subst hpk
      refine Or.inr (Or.inl ⟨rfl, ?_⟩)
      simp only [hf]
      simp
    · cases hfind : findSecret st event.secretName with
      | some s =>
        refine Or.inr (Or.inr (Or.inl ⟨pk, s, hpk, rfl, rfl, ?_⟩))
        simp only [hf]
        simp [hpk, hfind]
      | none =>
        refine Or.inr (Or.inr (Or.inr ⟨pk, hpk, rfl, rfl, ?_⟩))
        simp only [hf]
        simp [hpk, hfind]

/-! ### Secrets-state lemmas -/

theorem findSecret_putSecret (st : SecretsState) (name : String) (s : Secret)
    (pk : String) (h : findSecret st name = some s) :
    findSecret (putSecret st s.arn pk) name = some { s with value := pk } := by
  induction st with
  | nil => simp [findSecret] at h
  | cons a t ih =>
    by_cases ha : a.name = name
    · have hs : s = a := by
        simp [findSecret, List.find?, ha] at h
        exact h.symm
      subst hs
      simp [findSecret, putSecret, List.find?, ha]
    · have h' : findSecret t name = some s := by
        simpa [findSecret, List.find?, ha] using h
      have ih' := ih h'
      by_cases harn : a.arn = s.arn
      · simpa [findSecret, putSecret, List.find?, ha, harn] using ih'
      · simpa [findSecret, putSecret, List.find?, ha, harn] using ih'

theorem findSecret_append_of_none (st : SecretsState) (name : String)
    (x : Secret) (h : findSecret st name = none) (hx : x.name = name) :
    findSecret (st ++ [x]) name = some x := by
  induction st with
  | nil => simp [findSecret, List.find?, hx]
  | cons a t ih =>
    by_cases ha : a.name = name
    · simp [findSecret, List.find?, ha] at h
    · have h' : findSecret t name = none := by
        simpa [findSecret, List.find?, ha] using h
      simpa [findSecret, List.find?, ha] using ih h'

/-! ### Claim theorems about the handler -/

/-- **C1**: for every successful Create or Update invocation of the custom
resource handler, the value stored in the Secrets Manager secret named by
the `SecretName` property equals the private-key value read from the
Parameter Store parameter `/ec2/keypair/{KeyPairId}` (the secret is created
when absent and overwritten when present), and the handler responds SUCCESS
with the secret's ARN as the `PrivateKeySecretArn` attribute. -/
theorem handler_success_stores_key (ssm : Nat → Option String)
    (mkArn : String → String) (st : SecretsState) (event : Event)
    (data : List (String × String))
    (hne : event.requestType ≠ RequestType.Delete)
    (hsucc : (handler ssm mkArn st event).1.getLast? =
      some (ApiCall.sendResponse Status.SUCCESS data)) :
    ∃ pk arn, fetchedKey ssm event = some pk ∧
      secretValue (handler ssm mkArn st event).2 event.secretName = some pk ∧
      secretArn (handler ssm mkArn st event).2 event.secretName = some arn ∧
      data = [("PrivateKeySecretArn", arn)] := by
  rcases handler_cases ssm mkArn st event hne with
    ⟨hf, heq⟩ | ⟨hf, heq⟩ | ⟨pk, s, hpk, hf, hfind, heq⟩ | ⟨pk, hpk, hf, hfind, heq⟩
  · rw [heq] at hsucc
    simp [List.getLast?_append_cons] at hsucc
  · rw [heq] at hsucc
    simp [List.getLast?_append_cons] at hsucc
  · rw [heq] at hsucc
    rw [List.getLast?_append_cons] at hsucc
    simp [List.getLast?] at hsucc
    refine ⟨pk, s.arn, hf, ?_, ?_, hsucc.symm⟩
    · rw [heq]
      simp [secretValue, findSecret_putSecret st event.secretName s pk hfind]
    · rw [heq]
      simp [secretArn, findSecret_putSecret st event.secretName s pk hfind]
  · rw [heq] at hsucc
    rw [List.getLast?_append_cons] at hsucc
    simp [List.getLast?] at hsucc
    have hnew : findSecret ((handler ssm mkArn st event).2) event.secretName =
        some ⟨event.secretName, mkArn event.secretName, pk⟩ := by
      rw [heq]
      exact findSecret_append_of_none st event.secretName _ hfind rfl
    refine ⟨pk, mkArn event.secretName, hf, ?_, ?_, hsucc.symm⟩
    · simp [secretValue, hnew]
    · simp [secretArn, hnew]

/-- Witness for `handler_success_stores_key`: a concrete Create invocation
with the key present at the first poll and no pre-existing secret. -/
theorem handler_success_stores_key_witness :
    (⟨RequestType.Create, "key-0abc", "/n8n/ec2/private-key-S"⟩ : Event).requestType ≠
        RequestType.Delete ∧
    ∃ pk arn,
      fetchedKey (fun _ => some "PK-MATERIAL")
          ⟨RequestType.Create, "key-0abc", "/n8n/ec2/private-key-S"⟩ = some pk ∧
      secretValue
        (handler (fun _ => some "PK-MATERIAL") (fun n => "arn:" ++ n) []
          ⟨RequestType.Create, "key-0abc", "/n8n/ec2/private-key-S"⟩).2
        "/n8n/ec2/private-key-S" = some pk ∧
      secretArn
        (handler (fun _ => some "PK-MATERIAL") (fun n => "arn:" ++ n) []
          ⟨RequestType.Create, "key-0abc", "/n8n/ec2/private-key-S"⟩).2
        "/n8n/ec2/private-key-S" = some arn ∧
      [("PrivateKeySecretArn", "arn:/n8n/ec2/private-key-S")] =
        [("PrivateKeySecretArn", arn)] :=
  ⟨by decide,
   handler_success_stores_key (fun _ => some "PK-MATERIAL") (fun n => "arn:" ++ n) []
     ⟨RequestType.Create, "key-0abc", "/n8n/ec2/private-key-S"⟩
     [("PrivateKeySecretArn", "arn:/n8n/ec2/private-key-S")]
     (by decide) (by decide)⟩

/-- **C2**: the credential-fetch loop polls the Parameter Store parameter
at most 10 times with a fixed 2-second delay between attempts, stops at the
first attempt on which the value is found, and fails (leading to a FAILED
response) after exhausting all retries; no other retry logic exists in the
handler (every other API call occurs at most once per invocation). -/
theorem handler_poll_bounded (ssm : Nat → Option String)
    (mkArn : String → String) (st : SecretsState) (event : Event)
    (hne : event.requestType ≠ RequestType.Delete) :
    countGet (handler ssm mkArn st event).1 ≤ 10 ∧
    (∀ s ∈ sleepsOf (handler ssm mkArn st event).1, s = 2) ∧
    (∀ k v, k < 10 → (∀ j, j < k → ssm j = none) → ssm k = some v →
      fetchedKey ssm event = some v ∧
      countGet (handler ssm mkArn st event).1 = k + 1 ∧
      (sleepsOf (handler ssm mkArn st event).1).length = k) ∧
    ((∀ j, j < 10 → ssm j = none) →
      countGet (handler ssm mkArn st event).1 = 10 ∧
      (sleepsOf (handler ssm mkArn st event).1).length = 9 ∧
      (handler ssm mkArn st event).1.getLast? =
        some (ApiCall.sendResponse Status.FAILED [])) ∧
    countDescribe (handler ssm mkArn st event).1 ≤ 1 ∧
    countPut (handler ssm mkArn st event).1 ≤ 1 ∧
    countCreate (handler ssm mkArn st event).1 ≤ 1 := by
  have key : ∃ tail,
      (handler ssm mkArn st event).1 =
        (pollLoop ssm ("/ec2/keypair/" ++ event.keyPairId) 0 10).1 ++ tail ∧
      countGet tail = 0 ∧ sleepsOf tail = [] ∧
      countDescribe tail ≤ 1 ∧ countPut tail ≤ 1 ∧ countCreate tail ≤ 1 := by
    rcases handler_cases ssm mkArn st event hne with
      ⟨_, heq⟩ | ⟨_, heq⟩ | ⟨pk, s, _, _, _, heq⟩ | ⟨pk, _, _, _, heq⟩ <;>
      rw [heq] <;>
      exact ⟨_, rfl, by simp [countGet, countDescribe, countPut, countCreate,
        List.countP_cons, isGet, isDescribe, isPut, isCreate, sleepsOf]⟩
  obtain ⟨tail, htr, hg0, hs0, hd1, hp1, hc1⟩ := key
  have hcalls := pollLoop_calls ssm ("/ec2/keypair/" ++ event.keyPairId) 10 0 10
    (by omega)
  have hd0 : countDescribe (pollLoop ssm ("/ec2/keypair/" ++ event.keyPairId) 0 10).1 = 0 := by
    rw [countDescribe, List.countP_eq_zero]
    intro c hc
    rcases hcalls c hc with rfl | rfl <;> simp [isDescribe]
  have hp0 : countPut (pollLoop ssm ("/ec2/keypair/" ++ event.keyPairId) 0 10).1 = 0 := by
    rw [countPut, List.countP_eq_zero]
    intro c hc
    rcases hcalls c hc with rfl | rfl <;> simp [isPut]
  have hc0 : countCreate (pollLoop ssm ("/ec2/keypair/" ++ event.keyPairId) 0 10).1 = 0 := by
    rw [countCreate, List.countP_eq_zero]
    intro c hc
    rcases hcalls c hc with rfl | rfl <;> simp [isCreate]
  refine ⟨?_, ?_, ?_, ?_, ?_, ?_, ?_⟩
  · rw [htr, countGet_append, hg0]
    have := pollLoop_count_le ssm ("/ec2/keypair/" ++ event.keyPairId) 10 0 10
      (by omega)
    omega
  · intro s hs
    rw [htr, sleepsOf_append, hs0, List.append_nil] at hs
    exact pollLoop_sleeps_two ssm ("/ec2/keypair/" ++ event.keyPairId) 10 0 10
      (by omega) s hs
  · intro k v hk hnone hv
    have hff := pollLoop_first_found ssm ("/ec2/keypair/" ++ event.keyPairId)
      10 0 10 k v (by omega) (Nat.zero_le k) hk
      (fun j _ hj => hnone j hj) hv
    refine ⟨hff.1, ?_, ?_⟩
    · rw [htr, countGet_append, hg0, hff.2.1]
      omega
    · rw [htr, sleepsOf_append, hs0, List.append_nil, hff.2.2]
      omega
  · intro hnone
    have hex := pollLoop_exhaust ssm ("/ec2/keypair/" ++ event.keyPairId)
      10 0 10 (by omega) (fun j _ hj => hnone j hj)
    have hfetch : fetchedKey ssm event = none := hex.1
    have hgt : countGet [ApiCall.sendResponse Status.FAILED []] = 0 := rfl
    have hst : sleepsOf [ApiCall.sendResponse Status.FAILED []] = [] := rfl
    rcases handler_cases ssm mkArn st event hne with
      ⟨_, heq⟩ | ⟨hf, _⟩ | ⟨pk, s, _, hf, _, _⟩ | ⟨pk, _, hf, _, _⟩
    · refine ⟨?_, ?_, ?_⟩
      · rw [heq, countGet_append, hgt, hex.2.1]
      · rw [heq, sleepsOf_append, hst, List.append_nil, hex.2.2]
      · rw [heq]
        simp [List.getLast?_append_cons]
    · rw [hfetch] at hf
      exact absurd hf (by simp)
    · rw [hfetch] at hf
      exact absurd hf (by simp)
    · rw [hfetch] at hf
      exact absurd hf (by simp)
  · rw [htr, countDescribe_append, hd0]
    omega
  · rw [htr, countPut_append, hp0]
    omega
  · rw [htr, countCreate_append, hc0]
    omega

/-- Witness for `handler_poll_bounded`: a concrete Update invocation in
which the key appears at the fourth poll. -/
theorem handler_poll_bounded_witness :
    (Event.mk RequestType.Update "key-1" "/n8n/ec2/private-key-S").requestType ≠
        RequestType.Delete ∧
    countGet (handler (fun n => if n = 3 then some "PK" else none)
        (fun n => "arn:" ++ n) []
        (Event.mk RequestType.Update "key-1" "/n8n/ec2/private-key-S")).1 ≤ 10 :=
  ⟨by decide,
   (handler_poll_bounded (fun n => if n = 3 then some "PK" else none)
      (fun n => "arn:" ++ n) []
      (Event.mk RequestType.Update "key-1" "/n8n/ec2/private-key-S")
      (by decide)).1⟩

/-- **C5**: when a step of the handler raises an exception (retry
exhaustion of the credential fetch, or an empty credential), the outer
`except` catches it and the handler sends a FAILED response with an empty
data payload, leaving the Secrets Manager state unchanged. -/
theorem handler_exception_failed_response (ssm : Nat → Option String)
    (mkArn : String → String) (st : SecretsState) (event : Event)
    (hne : event.requestType ≠ RequestType.Delete)
    (hexc : fetchedKey ssm event = none ∨ fetchedKey ssm event = some "") :
    (handler ssm mkArn st event).1.getLast? =
      some (ApiCall.sendResponse Status.FAILED []) ∧
    (handler ssm mkArn st event).2 = st := by
  rcases handler_cases ssm mkArn st event hne with
    ⟨hf, heq⟩ | ⟨hf, heq⟩ | ⟨pk, s, hpk, hf, _, heq⟩ | ⟨pk, hpk, hf, _, heq⟩
  · exact ⟨by rw [heq]; simp [List.getLast?_append_cons], by rw [heq]⟩
  · exact ⟨by rw [heq]; simp [List.getLast?_append_cons], by rw [heq]⟩
  · rcases hexc with h | h
    · rw [h] at hf
      simp at hf
    · rw [h] at hf
      simp at hf
      exact absurd hf.symm hpk
  · rcases hexc with h | h
    · rw [h] at hf
      simp at hf
    · rw [h] at hf
      simp at hf
      exact absurd hf.symm hpk

/-- Witness for `handler_exception_failed_response`: a Create invocation
against a parameter store in which the key never appears. -/
theorem handler_exception_failed_response_witness :
    (Event.mk RequestType.Create "key-1" "/n8n/ec2/private-key-S").requestType ≠
        RequestType.Delete ∧
    (fetchedKey (fun _ => none)
        (Event.mk RequestType.Create "key-1" "/n8n/ec2/private-key-S") = none ∨
      fetchedKey (fun _ => none)
        (Event.mk RequestType.Create "key-1" "/n8n/ec2/private-key-S") = some "") ∧
    (handler (fun _ => none) (fun n => "arn:" ++ n)
        [Secret.mk "other" "arn:other" "v"]
        (Event.mk RequestType.Create "key-1" "/n8n/ec2/private-key-S")).1.getLast? =
      some (ApiCall.sendResponse Status.FAILED []) ∧
    (handler (fun _ => none) (fun n => "arn:" ++ n)
        [Secret.mk "other" "arn:other" "v"]
        (Event.mk RequestType.Create "key-1" "/n8n/ec2/private-key-S")).2 =
      [Secret.mk "other" "arn:other" "v"] :=
  ⟨by decide, Or.inl (by decide),
   handler_exception_failed_response (fun _ => none) (fun n => "arn:" ++ n)
     [Secret.mk "other" "arn:other" "v"]
     (Event.mk RequestType.Create "key-1" "/n8n/ec2/private-key-S")
     (by decide) (Or.inl (by decide))⟩

/-- **C10**: for every Delete event, the handler responds SUCCESS
immediately without reading the Parameter Store parameter or touching any
Secrets Manager secret, and leaves the secrets state unchanged. -/
theorem handler_delete_noop (ssm : Nat → Option String)
    (mkArn : String → String) (st : SecretsState) (event : Event)
    (h : event.requestType = RequestType.Delete) :
    handler ssm mkArn st event = ([ApiCall.sendResponse Status.SUCCESS []], st) ∧
    countGet (handler ssm mkArn st event).1 = 0 ∧
    countDescribe (handler ssm mkArn st event).1 = 0 ∧
    countPut (handler ssm mkArn st event).1 = 0 ∧
    countCreate (handler ssm mkArn st event).1 = 0 ∧
    (handler ssm mkArn st event).2 = st := by
  have heq : handler ssm mkArn st event =
      ([ApiCall.sendResponse Status.SUCCESS []], st) := by
    unfold handler
    rw [if_pos h]
  refine ⟨heq, ?_, ?_, ?_, ?_, ?_⟩ <;> rw [heq] <;> rfl

/-- Witness for `handler_delete_noop`: a concrete Delete invocation with a
pre-existing secret, which is left untouched. -/
theorem handler_delete_noop_witness :
    (Event.mk RequestType.Delete "key-1" "/n8n/ec2/private-key-S").requestType =
        RequestType.Delete ∧
    handler (fun _ => some "PK") (fun n => "arn:" ++ n)
        [Secret.mk "/n8n/ec2/private-key-S" "arn:old" "oldkey"]
        (Event.mk RequestType.Delete "key-1" "/n8n/ec2/private-key-S") =
      ([ApiCall.sendResponse Status.SUCCESS []],
       [Secret.mk "/n8n/ec2/private-key-S" "arn:old" "oldkey"]) :=
  ⟨by decide,
   (handler_delete_noop (fun _ => some "PK") (fun n => "arn:" ++ n)
      [Secret.mk "/n8n/ec2/private-key-S" "arn:old" "oldkey"]
      (Event.mk RequestType.Delete "key-1" "/n8n/ec2/private-key-S")
      (by decide)).1⟩

/-! ## The CDK stack (`lib/stacks/n8n-stack.ts`)

The `N8nStack` constructor is a declarative mapping from the optional
configuration inputs (`domainName`, `instanceType`, `allowedSSHCidr`) to a
fixed list of cloud resources.  We embed the constructor as a Lean function
producing the resources in construction order.  CloudFormation references
(`Fn::GetAtt`, `Ref`) are modelled as symbolic strings. -/

structure N8nStackProps where
  domainName : Option String
  instanceType : Option String
  allowedSSHCidr : Option String
  deriving DecidableEq, Repr

structure IngressRule where
  peer : String
  port : Nat
  description : String
  deriving DecidableEq, Repr

inductive Resource
  | vpc (id : String) (maxAzs natGateways : Nat)
  | securityGroup (id description : String) (allowAllOutbound : Bool)
      (ingress : List IngressRule)
  | keyPair (id keyName keyType keyFormat : String)
  | lambdaFunction (id runtime handlerName : String) (timeoutMinutes : Nat)
  | rolePolicy (target : String) (actions resources : List String)
  | customResource (id serviceToken : String)
      (properties : List (String × String)) (dependsOn : List String)
  | eip (id domain : String)
  | iamRole (id assumedBy : String) (managedPolicies : List String)
  | ec2Instance (id instanceType machineImage keyName subnetType
      securityGroupId roleId userDataDomain : String)
  | eipAssociation (id eipId instanceId : String)
  | stackOutput (name value description : String)
  deriving DecidableEq, Repr

inductive ResourceKind
  | vpc
  | securityGroup
  | keyPair
  | lambdaFunction
  | rolePolicy
  | customResource
  | eip
  | iamRole
  | ec2Instance
  | eipAssociation
  | stackOutput
  deriving DecidableEq, Repr

def Resource.kind : Resource → ResourceKind
  | Resource.vpc _ _ _ => ResourceKind.vpc
  | Resource.securityGroup _ _ _ _ => ResourceKind.securityGroup
  | Resource.keyPair _ _ _ _ => ResourceKind.keyPair
  | Resource.lambdaFunction _ _ _ _ => ResourceKind.lambdaFunction
  | Resource.rolePolicy _ _ _ => ResourceKind.rolePolicy
  | Resource.customResource _ _ _ _ => ResourceKind.customResource
  | Resource.eip _ _ => ResourceKind.eip
  | Resource.iamRole _ _ _ => ResourceKind.iamRole
  | Resource.ec2Instance _ _ _ _ _ _ _ _ => ResourceKind.ec2Instance
  | Resource.eipAssociation _ _ _ => ResourceKind.eipAssociation
  | Resource.stackOutput _ _ _ => ResourceKind.stackOutput

/-- JavaScript `x || d` on an optional string: `undefined` and the empty
string are falsy and fall through to the default. -/
def jsOrString (v : Option String) (d : String) : String :=
  match v with
  | none => d
  | some s => if s = "" then d else s

/-- `props?.domainName || 'n8n.keysely.com'` -/
def effectiveDomainName (props : Option N8nStackProps) : String :=
  jsOrString (props.bind N8nStackProps.domainName) "n8n.keysely.com"

/-- `props?.instanceType || ec2.InstanceType.of(T3, MICRO)`
(the instance type is an object, so only `undefined` is falsy). -/
def effectiveInstanceType (props : Option N8nStackProps) : String :=
  (props.bind N8nStackProps.instanceType).getD "t3.micro"

/-- `props?.allowedSSHCidr || '0.0.0.0/0'` -/
def effectiveSSHCidr (props : Option N8nStackProps) : String :=
  jsOrString (props.bind N8nStackProps.allowedSSHCidr) "0.0.0.0/0"

/-- The `N8nStack` constructor: resources created, in order.
`useDefaultVpcCtx` is the `useDefaultVpc` context value (`Vpc` resource
created only when it is exactly `false`; otherwise the default VPC is
looked up, which creates no resource). -/
def n8nStack (useDefaultVpcCtx : Option Bool) (stackName region account : String)
    (props : Option N8nStackProps) : List Resource :=
  let domainName := effectiveDomainName props
  let instanceType := effectiveInstanceType props
  let allowedSSHCidr := effectiveSSHCidr props
  let secretName := "/n8n/ec2/private-key-" ++ stackName
  (if useDefaultVpcCtx = some false then [Resource.vpc "VPC" 2 0] else []) ++
  [Resource.securityGroup "N8nEC2SecurityGroup"
     "Security group for n8n EC2 instance" true
     [⟨"0.0.0.0/0", 80, "Allow HTTP from internet"⟩,
      ⟨"0.0.0.0/0", 443, "Allow HTTPS from internet"⟩,
      ⟨allowedSSHCidr, 22, "Allow SSH from specified CIDR"⟩],
   Resource.keyPair "N8nKeyPair" ("n8n-keypair-" ++ stackName) "rsa" "pem",
   Resource.lambdaFunction "KeyRetrieverFunction" "python3.12" "index.handler" 5,
   Resource.rolePolicy "KeyRetrieverFunction"
     ["ssm:GetParameter"]
     ["arn:aws:ssm:" ++ region ++ ":" ++ account ++ ":parameter/ec2/keypair/*"],
   Resource.rolePolicy "KeyRetrieverFunction"
     ["secretsmanager:CreateSecret", "secretsmanager:DescribeSecret",
      "secretsmanager:PutSecretValue", "secretsmanager:GetSecretValue"]
     ["arn:aws:secretsmanager:" ++ region ++ ":" ++ account ++
       ":secret:/n8n/ec2/private-key-*"],
   Resource.customResource "KeyRetriever" "ATTR:KeyRetrieverFunction:Arn"
     [("KeyPairId", "ATTR:N8nKeyPair:KeyPairId"), ("SecretName", secretName)]
     ["N8nKeyPair"],
   Resource.eip "N8nElasticIP" "vpc",
   Resource.iamRole "N8nEC2Role" "ec2.amazonaws.com"
     ["AmazonSSMManagedInstanceCore"],
   Resource.rolePolicy "N8nEC2Role"
     ["ssm:GetParameter", "ssm:GetParameters"]
     ["arn:aws:ssm:" ++ region ++ ":" ++ account ++ ":parameter/n8n/*"],
   Resource.ec2Instance "N8nInstance" instanceType "AmazonLinux2023-x86_64"
     ("n8n-keypair-" ++ stackName) "PUBLIC" "N8nEC2SecurityGroup" "N8nEC2Role"
     domainName,
   Resource.eipAssociation "N8nElasticIPAssociation" "N8nElasticIP" "N8nInstance",
   Resource.stackOutput "InstanceId" "REF:N8nInstance" "EC2 Instance ID",
   Resource.stackOutput "ElasticIP" "REF:N8nElasticIP"
     "Elastic IP address for n8n instance",
   Resource.stackOutput "PublicIP" "ATTR:N8nInstance:PublicIp"
     "Public IP address of the instance",
   Resource.stackOutput "DomainName" domainName
     "Domain name for n8n (configure DNS A record pointing to Elastic IP)",
   Resource.stackOutput "SSHCommand"
     "ssh -i <your-key.pem> ec2-user@REF:N8nElasticIP"
     "SSH command to connect to the instance",
   Resource.stackOutput "KeyPairName" ("n8n-keypair-" ++ stackName)
     "Name of the EC2 Key Pair",
   Resource.stackOutput "PrivateKeySecretArn" "ATTR:KeyRetriever:PrivateKeySecretArn"
     "ARN of the Secrets Manager secret containing the private key",
   Resource.stackOutput "GetPrivateKeyCommand"
     ("aws secretsmanager get-secret-value --secret-id ATTR:KeyRetriever:PrivateKeySecretArn --query SecretString --output text > n8n-key.pem && chmod 400 n8n-key.pem")
     "Command to retrieve and save the private key from Secrets Manager",
   Resource.stackOutput "SSMSessionCommand"
     "aws ssm start-session --target REF:N8nInstance"
     "Alternative: Connect using AWS Systems Manager Session Manager (no key needed)"]

/-- Instance type of an EC2 instance resource. -/
def instanceTypeOf : Resource → Option String
  | Resource.ec2Instance _ t _ _ _ _ _ _ => some t
  | _ => none

/-- **C6**: omitted optional inputs fall back to fixed defaults
(`n8n.keysely.com`, `t3.micro`, `0.0.0.0/0`), and the resource set is fixed:
the same resource kinds are produced for every choice of inputs (the kind
list equals the default one), with only parameter values varying; the
security group carries ingress 80 and 443 from anywhere and 22 from the SSH
range. -/
theorem stack_fixed_resource_set (ctx : Option Bool)
    (stackName region account : String) (props : Option N8nStackProps) :
    (n8nStack ctx stackName region account props).map Resource.kind =
      (n8nStack ctx stackName region account none).map Resource.kind ∧
    effectiveDomainName none = "n8n.keysely.com" ∧
    effectiveInstanceType none = "t3.micro" ∧
    effectiveSSHCidr none = "0.0.0.0/0" ∧
    Resource.securityGroup "N8nEC2SecurityGroup"
      "Security group for n8n EC2 instance" true
      [⟨"0.0.0.0/0", 80, "Allow HTTP from internet"⟩,
       ⟨"0.0.0.0/0", 443, "Allow HTTPS from internet"⟩,
       ⟨effectiveSSHCidr props, 22, "Allow SSH from specified CIDR"⟩] ∈
      n8nStack ctx stackName region account props ∧
    Resource.keyPair "N8nKeyPair" ("n8n-keypair-" ++ stackName) "rsa" "pem" ∈
      n8nStack ctx stackName region account props ∧
    Resource.lambdaFunction "KeyRetrieverFunction" "python3.12" "index.handler" 5 ∈
      n8nStack ctx stackName region account props ∧
    Resource.customResource "KeyRetriever" "ATTR:KeyRetrieverFunction:Arn"
      [("KeyPairId", "ATTR:N8nKeyPair:KeyPairId"),
       ("SecretName", "/n8n/ec2/private-key-" ++ stackName)] ["N8nKeyPair"] ∈
      n8nStack ctx stackName region account props ∧
    Resource.eip "N8nElasticIP" "vpc" ∈
      n8nStack ctx stackName region account props ∧
    Resource.iamRole "N8nEC2Role" "ec2.amazonaws.com"
      ["AmazonSSMManagedInstanceCore"] ∈
      n8nStack ctx stackName region account props ∧
    Resource.ec2Instance "N8nInstance" (effectiveInstanceType props)
      "AmazonLinux2023-x86_64" ("n8n-keypair-" ++ stackName) "PUBLIC"
      "N8nEC2SecurityGroup" "N8nEC2Role" (effectiveDomainName props) ∈
      n8nStack ctx stackName region account props ∧
    Resource.eipAssociation "N8nElasticIPAssociation" "N8nElasticIP"
      "N8nInstance" ∈ n8nStack ctx stackName region account props := by
  by_cases hctx : ctx = some false <;>
    simp [n8nStack, hctx, Resource.kind, effectiveDomainName,
      effectiveInstanceType, effectiveSSHCidr, jsOrString]

/-- **C7**: the stack wires exactly one custom resource to the retriever
Lambda (the single custom resource's service token is the retriever
function's ARN), and that custom resource declares an explicit creation
dependency on the key pair resource. -/
theorem stack_single_custom_resource (ctx : Option Bool)
    (stackName region account : String) (props : Option N8nStackProps) :
    (n8nStack ctx stackName region account props).filter
        (fun r => r.kind = ResourceKind.customResource) =
      [Resource.customResource "KeyRetriever" "ATTR:KeyRetrieverFunction:Arn"
        [("KeyPairId", "ATTR:N8nKeyPair:KeyPairId"),
         ("SecretName", "/n8n/ec2/private-key-" ++ stackName)] ["N8nKeyPair"]] ∧
    Resource.keyPair "N8nKeyPair" ("n8n-keypair-" ++ stackName) "rsa" "pem" ∈
      n8nStack ctx stackName region account props ∧
    Resource.lambdaFunction "KeyRetrieverFunction" "python3.12" "index.handler" 5 ∈
      n8nStack ctx stackName region account props := by
  by_cases hctx : ctx = some false <;>
    simp [n8nStack, hctx, Resource.kind, List.filter]

/-- **C8**: with the default configuration (and with the test
configuration, which supplies only a domain name), the synthesized resource
set declares an EC2 instance whose instance type is the string `t3.micro`
and exactly one Elastic IP reservation. -/
theorem stack_default_instance_type_and_single_eip (ctx : Option Bool)
    (stackName region account domain : String) :
    (n8nStack ctx stackName region account none).filterMap instanceTypeOf =
      ["t3.micro"] ∧
    (n8nStack ctx stackName region account none).countP
      (fun r => r.kind = ResourceKind.eip) = 1 ∧
    (n8nStack ctx stackName region account
        (some ⟨some domain, none, none⟩)).filterMap instanceTypeOf =
      ["t3.micro"] ∧
    (n8nStack ctx stackName region account
        (some ⟨some domain, none, none⟩)).countP
      (fun r => r.kind = ResourceKind.eip) = 1 := by
  by_cases hctx : ctx = some false <;>
    simp [n8nStack, hctx, Resource.kind, instanceTypeOf, effectiveInstanceType,
      List.countP_cons, List.filterMap]

/-! ## The container composition (`scripts/user-data.sh`, docker-compose heredoc)

The boot provisioner writes `/opt/n8n/docker/docker-compose.yml` (a quoted
heredoc, so written verbatim) and runs `docker-compose up -d` on it.  We
embed the service topology: service names, images, restart policy, host
port publications (`ports:` entries `"HOST:CONTAINER"`), and network
attachment.  (Environment variables, volumes, health checks and Traefik
labels are carried by the same services but play no role in the port
topology.) -/

structure PortMapping where
  host : Nat
  container : Nat
  deriving DecidableEq, Repr

structure ComposeService where
  name : String
  image : String
  restart : String
  ports : List PortMapping
  networks : List String
  deriving DecidableEq, Repr

/-- The three services of the docker-compose file written at boot:
`postgres` publishes no port, `n8n` publishes `"5678:5678"`, `traefik`
publishes `"80:80"` and `"443:443"`. -/
def composeServices : List ComposeService :=
  [⟨"postgres", "postgres:15-alpine", "unless-stopped", [], ["n8n-network"]⟩,
   ⟨"n8n", "n8nio/n8n:latest", "unless-stopped", [⟨5678, 5678⟩], ["n8n-network"]⟩,
   ⟨"traefik", "traefik:v2.11", "unless-stopped", [⟨80, 80⟩, ⟨443, 443⟩],
     ["n8n-network"]⟩]

/-- All host ports published by the composition. -/
def publishedHostPorts : List Nat :=
  composeServices.flatMap fun s => s.ports.map PortMapping.host

/-- **C4 counterexample**: the claim that the composition exposes only
ports 80 and 443 on the host is false — the application service `n8n`
publishes host port 5678 via the mapping `"5678:5678"`. -/
theorem compose_app_port_published_counterexample :
    ¬ (∀ s ∈ composeServices, ∀ p ∈ s.ports,
        p.host = 80 ∨ p.host = 443) := by
  decide

/-- **C4 (amended)**: the boot provisioner launches exactly three
containerized services; the reverse proxy publishes host ports 80 and 443
and the database's port stays internal to the container network, but the
application also publishes its port 5678 on the host. -/
theorem compose_three_services_and_ports :
    composeServices.length = 3 ∧
    composeServices.map ComposeService.name = ["postgres", "n8n", "traefik"] ∧
    (composeServices.find? (fun s => s.name = "traefik")).map
        ComposeService.ports = some [⟨80, 80⟩, ⟨443, 443⟩] ∧
    (composeServices.find? (fun s => s.name = "postgres")).map
        ComposeService.ports = some [] ∧
    (composeServices.find? (fun s => s.name = "n8n")).map
        ComposeService.ports = some [⟨5678, 5678⟩] ∧
    publishedHostPorts = [5678, 80, 443] := by
  decide

/-! ## The `.env` heredoc (`scripts/user-data.sh`)

The provisioner writes `/opt/n8n/docker/.env` with
`cat > /opt/n8n/docker/.env << EOF ... EOF`.  The delimiter `EOF` is
unquoted, so bash performs parameter expansion, command substitution and
`\`-escaping of `$` inside the body.  Before the script runs, CDK replaces
every literal occurrence of the text `${DOMAIN_NAME}` with the configured
domain (`userDataScript.replace(/\$\{DOMAIN_NAME\}/g, domainName)`).

We model the heredoc body as its literal character sequences, the CDK
substitution as global textual replacement, and the bash expansion with an
environment oracle (`envv`) and a command-substitution oracle (`exec`, e.g.
the output of `openssl rand -base64 32` on this boot). -/

/-- Global textual replacement, as JavaScript
`String.prototype.replace` with a `/.../g` pattern (leftmost-first,
non-overlapping).  Fuel-based so it evaluates by `rfl`. -/
def jsReplaceAllGo (pat rep : List Char) : Nat → List Char → List Char
  | 0, _ => []
  | _ + 1, [] => []
  | fuel + 1, c :: rest =>
    if pat ≠ [] ∧ pat.isPrefixOf (c :: rest) then
      rep ++ jsReplaceAllGo pat rep fuel ((c :: rest).drop pat.length)
    else
      c :: jsReplaceAllGo pat rep fuel rest

def jsReplaceAll (s pat rep : String) : String :=
  String.mk (jsReplaceAllGo pat.data rep.data s.data.length s.data)

/-- One step of bash expansion of an unquoted-heredoc body:
`\$` yields a literal `$`, `\\` a literal `\`, `${NAME}` the value of the
variable, `$(CMD)` the output of the command; everything else is copied.
Fuel-based so it evaluates by `rfl`. -/
def hdExpandGo (envv exec : String → String) : Nat → List Char → List Char
  | 0, _ => []
  | _ + 1, [] => []
  | fuel + 1, '\\' :: '$' :: rest => '$' :: hdExpandGo envv exec fuel rest
  | fuel + 1, '\\' :: '\\' :: rest => '\\' :: hdExpandGo envv exec fuel rest
  | fuel + 1, '$' :: '{' :: rest =>
    (envv (String.mk (rest.takeWhile (· ≠ '}')))).data ++
      hdExpandGo envv exec fuel ((rest.dropWhile (· ≠ '}')).drop 1)
  | fuel + 1, '$' :: '(' :: rest =>
    (exec (String.mk (rest.takeWhile (· ≠ ')')))).data ++
      hdExpandGo envv exec fuel ((rest.dropWhile (· ≠ ')')).drop 1)
  | fuel + 1, c :: rest => c :: hdExpandGo envv exec fuel rest

def hdExpand (envv exec : String → String) (line : String) : String :=
  String.mk (hdExpandGo envv exec line.data.length line.data)

/-- The body of the `.env` heredoc, exactly as written in
`scripts/user-data.sh` (lines 131–137). -/
def envHeredocSource : List String :=
  ["DOMAIN_NAME=${DOMAIN_NAME}",
   "POSTGRES_USER=n8n",
   "POSTGRES_PASSWORD=\\$(openssl rand -base64 32)",
   "POSTGRES_DB=n8n",
   "N8N_BASIC_AUTH_USER=admin",
   "N8N_BASIC_AUTH_PASSWORD=\\$(openssl rand -base64 32)",
   "ACME_EMAIL=admin@${DOMAIN_NAME}"]

/-- The lines of `/opt/n8n/docker/.env` as generated at boot: the CDK
domain substitution followed by the bash heredoc expansion. -/
def envFileLines (domain : String) (envv exec : String → String) : List String :=
  (envHeredocSource.map
      (fun l => jsReplaceAll l "${DOMAIN_NAME}" domain)).map
    (hdExpand envv exec)

/-- **C3 (code/claim divergence)**: whatever this boot's `openssl rand`
outputs (`exec`), whatever the domain and the shell environment, the
generated `POSTGRES_PASSWORD` and `N8N_BASIC_AUTH_PASSWORD` lines are the
same fixed literal text `$(openssl rand -base64 32)`: the `\$` escape in
the unquoted heredoc suppresses the command substitution, so the
credentials are not fresh random strings and are identical across boots. -/
theorem envFile_passwords_are_fixed_literals (domain : String)
    (envv exec : String → String) :
    (envFileLines domain envv exec).get? 2 =
      some "POSTGRES_PASSWORD=$(openssl rand -base64 32)" ∧
    (envFileLines domain envv exec).get? 5 =
      some "N8N_BASIC_AUTH_PASSWORD=$(openssl rand -base64 32)" := by
  exact ⟨rfl, rfl⟩

/-! ## The diagnostic script (`scripts/check-traefik-local.sh`)

The script takes an optional first argument (`DOMAIN="${1:-n8n.keysely.com}"`),
runs a fixed sequence of numbered checks, and reports verdicts through the
three helpers `check_passed`, `check_failed` and `check_warning`, which are
the only places a colour escape sequence is emitted.

We embed the script's standard output as a list of lines: `text` lines are
the script's own `echo`s (constant text, possibly with interpolated
values), `raw` lines are pass-through output of external commands
(`docker ps`, `docker logs`, ...), and `passed`/`failed`/`warning` lines
are the three helpers.  A `CheckEnv` records the outcome of every probe
the script makes.  (Early aborts caused by `set -e` on an unguarded
pipeline can only truncate this list; they add no lines.) -/

inductive OutLine
  | text (s : String)
  | raw (s : String)
  | passed (msg : String)
  | failed (msg : String)
  | warning (msg : String)
  deriving DecidableEq, Repr

/-- `GREEN='\033[0;32m'` etc. from the script. -/
def GREEN : String := "\x1b[0;32m"

def RED : String := "\x1b[0;31m"

def YELLOW : String := "\x1b[1;33m"

def NC : String := "\x1b[0m"

/-- The text actually printed for a line: the three verdict helpers
prepend a coloured symbol (`check_passed`, `check_failed`,
`check_warning`). -/
def render : OutLine → String
  | OutLine.text s => s
  | OutLine.raw s => s
  | OutLine.passed m => GREEN ++ "✓" ++ NC ++ " " ++ m
  | OutLine.failed m => RED ++ "✗" ++ NC ++ " " ++ m
  | OutLine.warning m => YELLOW ++ "⚠" ++ NC ++ " " ++ m

/-- `DOMAIN="${1:-n8n.keysely.com}"`: the default applies when the first
positional argument is unset or empty. -/
def scriptDomain (arg : Option String) : String :=
  match arg with
  | none => "n8n.keysely.com"
  | some s => if s = "" then "n8n.keysely.com" else s

/-- Outcomes of the external probes made by the script. -/
structure CheckEnv where
  /-- `cd /opt/n8n/docker` succeeded -/
  canCdDocker : Bool
  /-- output lines of `docker-compose ps` / `docker compose ps` -/
  composePsOut : List String
  /-- output lines of `docker ps --format "table ..."` -/
  dockerPsTable : List String
  /-- `docker logs traefik --tail 50` succeeded -/
  traefikLogsOk : Bool
  traefikLogs : List String
  /-- output of `docker inspect traefik | grep -A 30 "Env" | head -20` -/
  inspectEnvOut : List String
  /-- `jq` is installed -/
  hasJq : Bool
  /-- the grep for traefik labels found a match -/
  labelsGrepOk : Bool
  labelLines : List String
  /-- `docker exec traefik ls -la /letsencrypt/` succeeded -/
  lsLetsencryptOk : Bool
  letsencryptLs : List String
  /-- `stat -c%s /letsencrypt/acme.json` (0 on failure) -/
  acmeSize : Nat
  /-- `dig` is installed -/
  hasDig : Bool
  /-- `dig +short $DOMAIN | tail -n1` ("" when unresolved) -/
  dnsIp : String
  /-- instance metadata public IPv4 ("" when unavailable) -/
  instanceIp : String
  /-- `curl -w "%{http_code}" http://$DOMAIN` ("000" when unreachable) -/
  httpCode : String
  /-- `openssl` is installed -/
  hasOpenssl : Bool
  /-- lines of the certificate summary ([] when not retrievable) -/
  sslInfoLines : List String
  /-- `curl -w "%{http_code}" https://$DOMAIN` -/
  httpsCode : String
  /-- `docker network inspect` output mentions n8n -/
  networkHasN8n : Bool
  /-- `docker exec traefik wget -qO- http://n8n:5678/healthz` succeeded -/
  wgetHealthzOk : Bool
  wgetHealthzOut : List String
  /-- fallback `wget -qO- http://n8n:5678/ | grep -q n8n` succeeded -/
  wgetRootHasN8n : Bool
  /-- `ss` is installed -/
  hasSs : Bool
  /-- `ss -tlnp | grep -E ":(80|443)"` found a match -/
  ssGrepOk : Bool
  ssOut : List String
  /-- `netstat -tlnp | grep -E ":(80|443)"` found a match -/
  netstatGrepOk : Bool
  netstatOut : List String
  /-- `docker ps --format ... | grep -E "(traefik|80|443)"` output -/
  portMapOut : List String
  /-- traefik's `/proc/1/environ` mentions `DOCKER_HOST` -/
  dockerHostInEnviron : Bool
  deriving Repr

def dashes : String := "----------------------------------------"

def checkSec1Body (e : CheckEnv) : List OutLine :=
  [OutLine.text "Container Status:"] ++
  e.composePsOut.map OutLine.raw ++
  [OutLine.text "", OutLine.text "Container Health:"] ++
  e.dockerPsTable.map OutLine.raw ++
  [OutLine.text ""]

def checkSec2 (e : CheckEnv) : List OutLine :=
  [OutLine.text "2. Checking Traefik logs...", OutLine.text dashes,
   OutLine.text "Last 50 lines of Traefik logs:"] ++
  (if e.traefikLogsOk then e.traefikLogs.map OutLine.raw
   else [OutLine.failed "Cannot access Traefik logs"]) ++
  [OutLine.text ""]

def checkSec3 (e : CheckEnv) : List OutLine :=
  [OutLine.text "3. Checking Traefik configuration...", OutLine.text dashes,
   OutLine.text "Traefik container environment variables:"] ++
  e.inspectEnvOut.map OutLine.raw ++
  [OutLine.text "", OutLine.text "Traefik labels on n8n service:"] ++
  (if e.hasJq then
    (if e.labelsGrepOk then e.labelLines.map OutLine.raw
     else [OutLine.warning "No Traefik labels found or jq not available"])
   else
    (if e.labelsGrepOk then e.labelLines.map OutLine.raw
     else [OutLine.warning "No Traefik labels found"])) ++
  [OutLine.text ""]

def checkSec4 (e : CheckEnv) : List OutLine :=
  [OutLine.text "4. Checking Let's Encrypt certificates...", OutLine.text dashes,
   OutLine.text "Checking acme.json file:"] ++
  (if e.lsLetsencryptOk then
    e.letsencryptLs.map OutLine.raw ++
    [if 0 < e.acmeSize then
       OutLine.passed ("acme.json exists and has content (" ++
         toString e.acmeSize ++ " bytes)")
     else
       OutLine.warning
         "acme.json exists but is empty (certificate may still be provisioning)"]
   else [OutLine.failed "Cannot access /letsencrypt directory"]) ++
  [OutLine.text ""]

def checkSec5 (d : String) (e : CheckEnv) : List OutLine :=
  [OutLine.text "5. Checking DNS resolution...", OutLine.text dashes] ++
  (if e.hasDig then
    (if e.dnsIp ≠ "" then
      [OutLine.passed ("DNS resolves " ++ d ++ " to " ++ e.dnsIp)] ++
      (if e.instanceIp ≠ "" ∧ e.dnsIp = e.instanceIp then
        [OutLine.passed "DNS IP matches instance public IP"]
       else if e.instanceIp ≠ "" then
        [OutLine.warning ("DNS IP (" ++ e.dnsIp ++
          ") does not match instance IP (" ++ e.instanceIp ++ ")")]
       else [])
     else [OutLine.failed ("DNS does not resolve for " ++ d)])
   else
    [OutLine.warning "dig command not found. Install bind-utils to check DNS",
     OutLine.text ("  Manual check: dig " ++ d ++ " or nslookup " ++ d)]) ++
  [OutLine.text ""]

def checkSec6 (d : String) (e : CheckEnv) : List OutLine :=
  [OutLine.text "6. Checking HTTP connectivity...", OutLine.text dashes] ++
  [if e.httpCode = "301" ∨ e.httpCode = "302" ∨ e.httpCode = "308" then
     OutLine.passed ("HTTP redirects to HTTPS (code: " ++ e.httpCode ++ ")")
   else if e.httpCode = "000" then
     OutLine.failed ("Cannot connect to http://" ++ d)
   else
     OutLine.warning ("HTTP returned code " ++ e.httpCode ++
       " (expected 301/302/308 redirect)")] ++
  [OutLine.text ""]

def checkSec7 (d : String) (e : CheckEnv) : List OutLine :=
  [OutLine.text "7. Checking HTTPS connectivity and SSL certificate...",
   OutLine.text dashes] ++
  (if e.hasOpenssl then
    [OutLine.text "Testing SSL certificate:"] ++
    (if e.sslInfoLines ≠ [] then
      [OutLine.passed "SSL certificate is valid"] ++
      e.sslInfoLines.map (fun l => OutLine.text ("  " ++ l))
     else
      [OutLine.warning "Cannot retrieve SSL certificate (may still be provisioning)"])
   else [OutLine.warning "openssl not found. Install openssl to check SSL certificate"]) ++
  [if e.httpsCode = "401" then
     OutLine.passed "HTTPS is accessible (401 = Basic Auth required, which is correct)"
   else if e.httpsCode = "200" then
     OutLine.passed "HTTPS is accessible"
   else if e.httpsCode = "000" then
     OutLine.failed ("Cannot connect to https://" ++ d)
   else OutLine.warning ("HTTPS returned code " ++ e.httpsCode)] ++
  [OutLine.text ""]

def checkSec8 (e : CheckEnv) : List OutLine :=
  [OutLine.text "8. Checking Traefik routing configuration...", OutLine.text dashes,
   OutLine.text "Checking if n8n service is discoverable by Traefik:"] ++
  [if e.networkHasN8n then OutLine.passed "n8n is in the Docker network"
   else OutLine.warning "Cannot verify n8n network configuration"] ++
  [OutLine.text "",
   OutLine.text "Testing internal connectivity from Traefik to n8n:"] ++
  (if e.wgetHealthzOk then
    e.wgetHealthzOut.map OutLine.raw ++
    [OutLine.passed "n8n is reachable from Traefik container"]
   else if e.wgetRootHasN8n then
    [OutLine.passed "n8n is reachable from Traefik (alternative check)"]
   else [OutLine.warning "n8n may not be reachable from Traefik (check logs)"]) ++
  [OutLine.text ""]

def checkSec9 (e : CheckEnv) : List OutLine :=
  [OutLine.text "9. Checking port bindings...", OutLine.text dashes,
   OutLine.text "Ports listening on the host:"] ++
  (if e.hasSs then
    (if e.ssGrepOk then e.ssOut.map OutLine.raw
     else [OutLine.warning "Ports 80/443 not found in ss output"])
   else
    (if e.netstatGrepOk then e.netstatOut.map OutLine.raw
     else [OutLine.warning "Ports 80/443 not found in netstat output"])) ++
  [OutLine.text "", OutLine.text "Docker port mappings:"] ++
  e.portMapOut.map OutLine.raw ++
  [OutLine.text ""]

def checkSec10 (e : CheckEnv) : List OutLine :=
  [OutLine.text "10. Checking Traefik service discovery...", OutLine.text dashes,
   OutLine.text "Services discovered by Traefik:"] ++
  [if e.dockerHostInEnviron then
     OutLine.passed "Traefik has access to Docker socket"
   else OutLine.warning "Cannot verify Docker socket access"] ++
  [OutLine.text ""]

def checkSec11 : List OutLine :=
  [OutLine.text "11. Summary and recommendations...", OutLine.text dashes,
   OutLine.text "",
   OutLine.text "Expected Traefik configuration:",
   OutLine.text "  ✓ Traefik container running on ports 80 and 443",
   OutLine.text "  ✓ Let's Encrypt certificate resolver configured",
   OutLine.text "  ✓ HTTP to HTTPS redirect enabled",
   OutLine.text "  ✓ n8n service with Traefik labels",
   OutLine.text "  ✓ DNS pointing to instance IP",
   OutLine.text "  ✓ SSL certificate valid and working",
   OutLine.text "",
   OutLine.text "If any checks failed:",
   OutLine.text "  1. Check Traefik logs: docker logs traefik",
   OutLine.text "  2. Check n8n logs: docker logs n8n",
   OutLine.text "  3. Verify DNS is configured correctly",
   OutLine.text "  4. Ensure security groups allow ports 80 and 443",
   OutLine.text "  5. Check that Let's Encrypt can reach port 80 (for HTTP challenge)",
   OutLine.text "  6. Wait a few minutes for certificate provisioning (first time)",
   OutLine.text "  7. Restart services if needed: cd /opt/n8n/docker && docker-compose restart",
   OutLine.text ""]

/-- The script's standard output, in order.  On `cd` failure the script
prints the failure verdict and exits (`exit 1`). -/
def runCheck (arg : Option String) (e : CheckEnv) : List OutLine :=
  let d := scriptDomain arg
  [OutLine.text "==========================================",
   OutLine.text "Traefik Configuration Check",
   OutLine.text "==========================================",
   OutLine.text ("Domain: " ++ d),
   OutLine.text "",
   OutLine.text "1. Checking Docker containers status...",
   OutLine.text dashes] ++
  (if e.canCdDocker then
    checkSec1Body e ++ checkSec2 e ++ checkSec3 e ++ checkSec4 e ++
    checkSec5 d e ++ checkSec6 d e ++ checkSec7 d e ++ checkSec8 e ++
    checkSec9 e ++ checkSec10 e ++ checkSec11
   else [OutLine.failed "Cannot access /opt/n8n/docker"])

/-- The ANSI escape character that begins every colour sequence. -/
def escChar : Char := '\x1b'

/-- A printed line is a *diagnostic verdict line* when it begins with a
colour escape sequence — exactly what the three check helpers produce. -/
def startsWithEsc (s : String) : Bool := s.data.head? = some escChar

/-- The three verdict forms of the script: green check (`check_passed`),
yellow warning (`check_warning`), red cross (`check_failed`). -/
def verdictForms (l : OutLine) : Prop :=
  ∃ m, (l = OutLine.passed m ∧ render l = GREEN ++ "✓" ++ NC ++ " " ++ m) ∨
       (l = OutLine.warning m ∧ render l = YELLOW ++ "⚠" ++ NC ++ " " ++ m) ∨
       (l = OutLine.failed m ∧ render l = RED ++ "✗" ++ NC ++ " " ++ m)

/-- A line satisfies the claim: if it is a verdict line (begins with a
colour escape), it has one of the three helper forms. -/
def lineOk (l : OutLine) : Prop :=
  startsWithEsc (render l) = true → verdictForms l

theorem lineOk_passed (m : String) : lineOk (OutLine.passed m) :=
  fun _ => ⟨m, Or.inl ⟨rfl, rfl⟩⟩

theorem lineOk_warning (m : String) : lineOk (OutLine.warning m) :=
  fun _ => ⟨m, Or.inr (Or.inl ⟨rfl, rfl⟩)⟩

theorem lineOk_failed (m : String) : lineOk (OutLine.failed m) :=
  fun _ => ⟨m, Or.inr (Or.inr ⟨rfl, rfl⟩)⟩

theorem lineOk_text (s : String) (h : startsWithEsc s = false) :
    lineOk (OutLine.text s) := by
  intro hc
  rw [show render (OutLine.text s) = s from rfl, h] at hc
  exact Bool.noConfusion hc

theorem lineOk_raw (s : String) (h : startsWithEsc s = false) :
    lineOk (OutLine.raw s) := by
  intro hc
  rw [show render (OutLine.raw s) = s from rfl, h] at hc
  exact Bool.noConfusion hc

theorem lineOk_all_nil : ∀ l ∈ ([] : List OutLine), lineOk l := by
  intro l hl
  exact absurd hl (List.not_mem_nil l)

theorem lineOk_all_cons {x : OutLine} {A : List OutLine} (hx : lineOk x)
    (ha : ∀ l ∈ A, lineOk l) : ∀ l ∈ x :: A, lineOk l := by
  intro l hl
  rcases List.mem_cons.mp hl with rfl | h
  · exact hx
  · exact ha l h

theorem lineOk_all_append {A B : List OutLine} (ha : ∀ l ∈ A, lineOk l)
    (hb : ∀ l ∈ B, lineOk l) : ∀ l ∈ A ++ B, lineOk l := by
  intro l hl
  rcases List.mem_append.mp hl with h | h
  · exact ha l h
  · exact hb l h

theorem lineOk_all_ite {c : Prop} [Decidable c] {A B : List OutLine}
    (ha : ∀ l ∈ A, lineOk l) (hb : ∀ l ∈ B, lineOk l) :
    ∀ l ∈ (if c then A else B), lineOk l := by
  split
  · exact ha
  · exact hb

theorem lineOk_all_raw {L : List String}
    (h : ∀ s ∈ L, startsWithEsc s = false) :
    ∀ l ∈ L.map OutLine.raw, lineOk l := by
  intro l hl
  obtain ⟨s, hs, rfl⟩ := List.mem_map.mp hl
  exact lineOk_raw s (h s hs)

theorem lineOk_all_indented {L : List String} :
    ∀ l ∈ L.map (fun s => OutLine.text ("  " ++ s)), lineOk l := by
  intro l hl
  obtain ⟨s, hs, rfl⟩ := List.mem_map.mp hl
  exact lineOk_text _ (by simp [startsWithEsc, escChar])

theorem lineOk_ite {c : Prop} [Decidable c] {x y : OutLine} (hx : lineOk x)
    (hy : lineOk y) : lineOk (if c then x else y) := by
  split
  · exact hx
  · exact hy

theorem checkSec1Body_ok (e : CheckEnv)
    (h1 : ∀ s ∈ e.composePsOut, startsWithEsc s = false)
    (h2 : ∀ s ∈ e.dockerPsTable, startsWithEsc s = false) :
    ∀ l ∈ checkSec1Body e, lineOk l := by
  unfold checkSec1Body
  simp only [List.cons_append, List.nil_append, List.append_assoc]
  refine lineOk_all_cons (lineOk_text _ (by decide)) ?_
  refine lineOk_all_append (lineOk_all_raw h1) ?_
  refine lineOk_all_cons (lineOk_text _ (by decide)) ?_
  refine lineOk_all_cons (lineOk_text _ (by decide)) ?_
  exact lineOk_all_append (lineOk_all_raw h2)
    (lineOk_all_cons (lineOk_text _ (by decide)) lineOk_all_nil)

theorem checkSec2_ok (e : CheckEnv)
    (h : ∀ s ∈ e.traefikLogs, startsWithEsc s = false) :
    ∀ l ∈ checkSec2 e, lineOk l := by
  unfold checkSec2
  simp only [List.cons_append, List.nil_append, List.append_assoc]
  refine lineOk_all_cons (lineOk_text _ (by decide)) ?_
  refine lineOk_all_cons (lineOk_text _ (by decide)) ?_
  refine lineOk_all_cons (lineOk_text _ (by decide)) ?_
  refine lineOk_all_append
    (lineOk_all_ite (lineOk_all_raw h)
      (lineOk_all_cons (lineOk_failed _) lineOk_all_nil)) ?_
  exact lineOk_all_cons (lineOk_text _ (by decide)) lineOk_all_nil

theorem checkSec3_ok (e : CheckEnv)
    (h1 : ∀ s ∈ e.inspectEnvOut, startsWithEsc s = false)
    (h2 : ∀ s ∈ e.labelLines, startsWithEsc s = false) :
    ∀ l ∈ checkSec3 e, lineOk l := by
  unfold checkSec3
  simp only [List.cons_append, List.nil_append, List.append_assoc]
  refine lineOk_all_cons (lineOk_text _ (by decide)) ?_
  refine lineOk_all_cons (lineOk_text _ (by decide)) ?_
  refine lineOk_all_cons (lineOk_text _ (by decide)) ?_
  refine lineOk_all_append (lineOk_all_raw h1) ?_
  refine lineOk_all_cons (lineOk_text _ (by decide)) ?_
  refine lineOk_all_cons (lineOk_text _ (by decide)) ?_
  refine lineOk_all_append
    (lineOk_all_ite
      (lineOk_all_ite (lineOk_all_raw h2)
        (lineOk_all_cons (lineOk_warning _) lineOk_all_nil))
      (lineOk_all_ite (lineOk_all_raw h2)
        (lineOk_all_cons (lineOk_warning _) lineOk_all_nil))) ?_
  exact lineOk_all_cons (lineOk_text _ (by decide)) lineOk_all_nil

theorem checkSec4_ok (e : CheckEnv)
    (h : ∀ s ∈ e.letsencryptLs, startsWithEsc s = false) :
    ∀ l ∈ checkSec4 e, lineOk l := by
  unfold checkSec4
  simp only [List.cons_append, List.nil_append, List.append_assoc]
  refine lineOk_all_cons (lineOk_text _ (by decide)) ?_
  refine lineOk_all_cons (lineOk_text _ (by decide)) ?_
  refine lineOk_all_cons (lineOk_text _ (by decide)) ?_
  refine lineOk_all_append
    (lineOk_all_ite
      (lineOk_all_append (lineOk_all_raw h)
        (lineOk_all_cons (lineOk_ite (lineOk_passed _) (lineOk_warning _))
          lineOk_all_nil))
      (lineOk_all_cons (lineOk_failed _) lineOk_all_nil)) ?_
  exact lineOk_all_cons (lineOk_text _ (by decide)) lineOk_all_nil

theorem checkSec5_ok (d : String) (e : CheckEnv) :
    ∀ l ∈ checkSec5 d e, lineOk l := by
  unfold checkSec5
  simp only [List.cons_append, List.nil_append, List.append_assoc]
  refine lineOk_all_cons (lineOk_text _ (by decide)) ?_
  refine lineOk_all_cons (lineOk_text _ (by decide)) ?_
  refine lineOk_all_append
    (lineOk_all_ite
      (lineOk_all_ite
        (lineOk_all_cons (lineOk_passed _)
          (lineOk_all_ite
            (lineOk_all_cons (lineOk_passed _) lineOk_all_nil)
            (lineOk_all_ite
              (lineOk_all_cons (lineOk_warning _) lineOk_all_nil)
              lineOk_all_nil)))
        (lineOk_all_cons (lineOk_failed _) lineOk_all_nil))
      (lineOk_all_cons (lineOk_warning _)
        (lineOk_all_cons
          (lineOk_text _ (by simp [startsWithEsc, escChar])) lineOk_all_nil))) ?_
  exact lineOk_all_cons (lineOk_text _ (by decide)) lineOk_all_nil

theorem checkSec6_ok (d : String) (e : CheckEnv) :
    ∀ l ∈ checkSec6 d e, lineOk l := by
  unfold checkSec6
  simp only [List.cons_append, List.nil_append, List.append_assoc]
  refine lineOk_all_cons (lineOk_text _ (by decide)) ?_
  refine lineOk_all_cons (lineOk_text _ (by decide)) ?_
  refine lineOk_all_cons
    (lineOk_ite (lineOk_passed _) (lineOk_ite (lineOk_failed _) (lineOk_warning _))) ?_
  exact lineOk_all_cons (lineOk_text _ (by decide)) lineOk_all_nil

theorem checkSec7_ok (d : String) (e : CheckEnv) :
    ∀ l ∈ checkSec7 d e, lineOk l := by
  unfold checkSec7
  simp only [List.cons_append, List.nil_append, List.append_assoc]
  refine lineOk_all_cons (lineOk_text _ (by decide)) ?_
  refine lineOk_all_cons (lineOk_text _ (by decide)) ?_
  refine lineOk_all_append
    (lineOk_all_ite
      (lineOk_all_cons (lineOk_text _ (by decide))
        (lineOk_all_ite
          (lineOk_all_cons (lineOk_passed _) lineOk_all_indented)
          (lineOk_all_cons (lineOk_warning _) lineOk_all_nil)))
      (lineOk_all_cons (lineOk_warning _) lineOk_all_nil)) ?_
  refine lineOk_all_cons
    (lineOk_ite (lineOk_passed _)
      (lineOk_ite (lineOk_passed _)
        (lineOk_ite (lineOk_failed _) (lineOk_warning _)))) ?_
  exact lineOk_all_cons (lineOk_text _ (by decide)) lineOk_all_nil

theorem checkSec8_ok (e : CheckEnv)
    (h : ∀ s ∈ e.wgetHealthzOut, startsWithEsc s = false) :
    ∀ l ∈ checkSec8 e, lineOk l := by
  unfold checkSec8
  simp only [List.cons_append, List.nil_append, List.append_assoc]
  refine lineOk_all_cons (lineOk_text _ (by decide)) ?_
  refine lineOk_all_cons (lineOk_text _ (by decide)) ?_
  refine lineOk_all_cons (lineOk_text _ (by decide)) ?_
  refine lineOk_all_cons (lineOk_ite (lineOk_passed _) (lineOk_warning _)) ?_
  refine lineOk_all_cons (lineOk_text _ (by decide)) ?_
  refine lineOk_all_cons (lineOk_text _ (by decide)) ?_
  refine lineOk_all_append
    (lineOk_all_ite
      (lineOk_all_append (lineOk_all_raw h)
        (lineOk_all_cons (lineOk_passed _) lineOk_all_nil))
      (lineOk_all_ite
        (lineOk_all_cons (lineOk_passed _) lineOk_all_nil)
        (lineOk_all_cons (lineOk_warning _) lineOk_all_nil))) ?_
  exact lineOk_all_cons (lineOk_text _ (by decide)) lineOk_all_nil

theorem checkSec9_ok (e : CheckEnv)
    (h1 : ∀ s ∈ e.ssOut, startsWithEsc s = false)
    (h2 : ∀ s ∈ e.netstatOut, startsWithEsc s = false)
    (h3 : ∀ s ∈ e.portMapOut, startsWithEsc s = false) :
    ∀ l ∈ checkSec9 e, lineOk l := by
  unfold checkSec9
  simp only [List.cons_append, List.nil_append, List.append_assoc]
  refine lineOk_all_cons (lineOk_text _ (by decide)) ?_
  refine lineOk_all_cons (lineOk_text _ (by decide)) ?_
  refine lineOk_all_cons (lineOk_text _ (by decide)) ?_
  refine lineOk_all_append
    (lineOk_all_ite
      (lineOk_all_ite (lineOk_all_raw h1)
        (lineOk_all_cons (lineOk_warning _) lineOk_all_nil))
      (lineOk_all_ite (lineOk_all_raw h2)
        (lineOk_all_cons (lineOk_warning _) lineOk_all_nil))) ?_
  refine lineOk_all_cons (lineOk_text _ (by decide)) ?_
  refine lineOk_all_cons (lineOk_text _ (by decide)) ?_
  exact lineOk_all_append (lineOk_all_raw h3)
    (lineOk_all_cons (lineOk_text _ (by decide)) lineOk_all_nil)

theorem checkSec10_ok (e : CheckEnv) : ∀ l ∈ checkSec10 e, lineOk l := by
  unfold checkSec10
  simp only [List.cons_append, List.nil_append, List.append_assoc]
  refine lineOk_all_cons (lineOk_text _ (by decide)) ?_
  refine lineOk_all_cons (lineOk_text _ (by decide)) ?_
  refine lineOk_all_cons (lineOk_text _ (by decide)) ?_
  refine lineOk_all_cons (lineOk_ite (lineOk_passed _) (lineOk_warning _)) ?_
  exact lineOk_all_cons (lineOk_text _ (by decide)) lineOk_all_nil

theorem checkSec11_ok : ∀ l ∈ checkSec11, lineOk l := by
  intro l hl
  unfold checkSec11 at hl
  simp only [List.mem_cons, List.not_mem_nil, or_false] at hl
  rcases hl with rfl | rfl | rfl | rfl | rfl | rfl | rfl | rfl | rfl | rfl | rfl |
    rfl | rfl | rfl | rfl | rfl | rfl | rfl | rfl | rfl <;>
    exact lineOk_text _ (by decide)

/-- All pass-through output the script echoes verbatim. -/
def rawOutputs (e : CheckEnv) : List String :=
  e.composePsOut ++ e.dockerPsTable ++ e.traefikLogs ++ e.inspectEnvOut ++
  e.labelLines ++ e.letsencryptLs ++ e.wgetHealthzOut ++ e.ssOut ++
  e.netstatOut ++ e.portMapOut

theorem runCheck_ok (arg : Option String) (e : CheckEnv)
    (hraw : ∀ s ∈ rawOutputs e, startsWithEsc s = false) :
    ∀ l ∈ runCheck arg e, lineOk l := by
  have h1 : ∀ s ∈ e.composePsOut, startsWithEsc s = false :=
    fun s hs => hraw s (by simp [rawOutputs, hs])
  have h2 : ∀ s ∈ e.dockerPsTable, startsWithEsc s = false :=
    fun s hs => hraw s (by simp [rawOutputs, hs])
  have h3 : ∀ s ∈ e.traefikLogs, startsWithEsc s = false :=
    fun s hs => hraw s (by simp [rawOutputs, hs])
  have h4 : ∀ s ∈ e.inspectEnvOut, startsWithEsc s = false :=
    fun s hs => hraw s (by simp [rawOutputs, hs])
  have h5 : ∀ s ∈ e.labelLines, startsWithEsc s = false :=
    fun s hs => hraw s (by simp [rawOutputs, hs])
  have h6 : ∀ s ∈ e.letsencryptLs, startsWithEsc s = false :=
    fun s hs => hraw s (by simp [rawOutputs, hs])
  have h7 : ∀ s ∈ e.wgetHealthzOut, startsWithEsc s = false :=
    fun s hs => hraw s (by simp [rawOutputs, hs])
  have h8 : ∀ s ∈ e.ssOut, startsWithEsc s = false :=
    fun s hs => hraw s (by simp [rawOutputs, hs])
  have h9 : ∀ s ∈ e.netstatOut, startsWithEsc s = false :=
    fun s hs => hraw s (by simp [rawOutputs, hs])
  have h10 : ∀ s ∈ e.portMapOut, startsWithEsc s = false :=
    fun s hs => hraw s (by simp [rawOutputs, hs])
  unfold runCheck
  simp only [List.cons_append, List.nil_append, List.append_assoc]
  refine lineOk_all_cons (lineOk_text _ (by decide)) ?_
  refine lineOk_all_cons (lineOk_text _ (by decide)) ?_
  refine lineOk_all_cons (lineOk_text _ (by decide)) ?_
  refine lineOk_all_cons (lineOk_text _ (by simp [startsWithEsc, escChar])) ?_
  refine lineOk_all_cons (lineOk_text _ (by decide)) ?_
  refine lineOk_all_cons (lineOk_text _ (by decide)) ?_
  refine lineOk_all_cons (lineOk_text _ (by decide)) ?_
  refine lineOk_all_ite ?_ (lineOk_all_cons (lineOk_failed _) lineOk_all_nil)
  refine lineOk_all_append (checkSec1Body_ok e h1 h2) ?_
  refine lineOk_all_append (checkSec2_ok e h3) ?_
  refine lineOk_all_append (checkSec3_ok e h4 h5) ?_
  refine lineOk_all_append (checkSec4_ok e h6) ?_
  refine lineOk_all_append (checkSec5_ok _ e) ?_
  refine lineOk_all_append (checkSec6_ok _ e) ?_
  refine lineOk_all_append (checkSec7_ok _ e) ?_
  refine lineOk_all_append (checkSec8_ok e h7) ?_
  refine lineOk_all_append (checkSec9_ok e h8 h9 h10) ?_
  exact lineOk_all_append (checkSec10_ok e) checkSec11_ok

/-- **C9**: the diagnostic script takes an optional first argument as the
domain, defaulting to `n8n.keysely.com` when absent (and the chosen domain
is echoed); assuming the pass-through output of the external commands does
not itself begin with a colour escape, every diagnostic verdict line the
script prints (every line beginning with a colour escape) has one of the
three forms produced by `check_passed` (green check), `check_warning`
(yellow warning) and `check_failed` (red cross). -/
theorem checkScript_domain_and_verdict_forms (arg : Option String)
    (e : CheckEnv)
    (hraw : ∀ s ∈ rawOutputs e, startsWithEsc s = false) :
    scriptDomain none = "n8n.keysely.com" ∧
    OutLine.text ("Domain: " ++ scriptDomain arg) ∈ runCheck arg e ∧
    ∀ l ∈ runCheck arg e, startsWithEsc (render l) = true → verdictForms l := by
  refine ⟨rfl, ?_, fun l hl => runCheck_ok arg e hraw l hl⟩
  unfold runCheck
  simp

/-- A concrete healthy probe environment for the witness. -/
def sampleCheckEnv : CheckEnv :=
  ⟨true, ["n8n Up 2 hours"], ["NAMES STATUS PORTS"], true,
   ["time=... level=info msg=Configuration loaded"],
   ["\"Env\": [", "\"DOMAIN_NAME=n8n.keysely.com\""], true, true,
   ["\"traefik.enable\": \"true\""], true,
   ["-rw------- 1 root root 12843 acme.json"], 12843, true, "3.4.5.6",
   "3.4.5.6", "308", true, ["notAfter=Jan 1 00:00:00 2027 GMT"], "401", true,
   true, ["ok"], true, true, true, ["LISTEN 0.0.0.0:80"], true, [],
   ["traefik 0.0.0.0:80->80/tcp, 0.0.0.0:443->443/tcp"], true⟩

/-- Witness for `checkScript_domain_and_verdict_forms`: no argument and a
concrete healthy environment. -/
theorem checkScript_domain_and_verdict_forms_witness :
    (∀ s ∈ rawOutputs sampleCheckEnv, startsWithEsc s = false) ∧
    (scriptDomain none = "n8n.keysely.com" ∧
     OutLine.text ("Domain: " ++ scriptDomain none) ∈ runCheck none sampleCheckEnv ∧
     ∀ l ∈ runCheck none sampleCheckEnv,
       startsWithEsc (render l) = true → verdictForms l) :=
  ⟨by decide, checkScript_domain_and_verdict_forms none sampleCheckEnv (by decide)⟩

end N8nInfra
